import Mathlib

/-!
Verification development for the RefactorTrack analytics ETL service.

Shallow embedding of
`src/backend/services/analytics/src/utils/data_processing.py`
(`MetricsProcessor`) and
`src/backend/services/analytics/src/services/etl_service.py`
(`ETLService`).

Conventions of the embedding:
* Python floats are modelled as `ℚ` (exact rational arithmetic); the
  special IEEE values produced by pandas/numpy (NaN, ±inf) are modelled
  explicitly by the inductive type `EF` where they can arise, and the
  sample standard deviation (which needs a square root) lands in `ℝ`.
* timestamps (`created_at`, `filled_at`, cache clocks) are modelled as `ℤ`.
* a raised Python exception is modelled as `Except.error` carrying the
  exception message; `raise Exception(f"... {e}")` becomes prefixing the
  inner message.
* Python dicts keyed by skill name are modelled as total functions
  `String → ℚ` extended by `0` outside their key set (a skill key is
  present in the source dict precisely when its value is nonzero).
-/

namespace RefactorTrack

/-- A requisition record as consumed by `MetricsProcessor._process_metrics_chunk`:
the columns the code reads are `status`, `time_to_hire`, `satisfaction_score`,
`created_at` and `required_skills`. -/
structure Req where
  status : String
  time_to_hire : ℚ
  satisfaction_score : ℚ
  created_at : ℤ
  filled_at : Option ℤ
  required_skills : List String
  deriving DecidableEq, Repr

/-- A candidate record (MongoDB `candidates` collection). -/
structure Cand where
  skills : List String
  experience_years : ℚ
  created_at : ℤ
  deriving DecidableEq, Repr

/-- A communication-log record (MongoDB `communications` collection). -/
structure Comm where
  timestamp : ℤ
  deriving DecidableEq, Repr

/-- The staging bundle assembled by `ETLService.extract_recruitment_data`:
`{"requisitions": ..., "candidates": ..., "communications": ...}`. -/
structure Bundle where
  requisitions : List Req
  candidates : List Cand
  communications : List Comm
  deriving DecidableEq, Repr

/-- Mean of a list of rationals, `sum / len` (pandas `Series.mean`);
only consulted on non-empty lists. -/
def qmean (l : List ℚ) : ℚ := l.sum / l.length

/-- Number of records whose `status` equals `"filled"`
(`len(chunk[chunk.status == filled])`). -/
def countFilled (rs : List Req) : ℕ :=
  (rs.filter (fun r => r.status = "filled")).length

/-- Number of records whose `required_skills` contains `s`
(`df[df.required_skills.apply(lambda x: skill in x)]` in
`MetricsProcessor._calculate_skill_metrics`). -/
def skillCount (rs : List Req) (s : String) : ℕ :=
  (rs.filter (fun r => s ∈ r.required_skills)).length

/-- Per-record skill prevalence map of `_calculate_skill_metrics`:
for each skill, `(records containing it) / total × 100`, extended by 0
for skills that occur in no record. -/
def skillPct (rs : List Req) (s : String) : ℚ :=
  (skillCount rs s : ℚ) / (rs.length : ℚ) * 100

/-- Minimum of the `created_at` column, `none` on an empty frame
(`chunk.created_at.min()`). -/
def minCreated : List Req → Option ℤ
  | [] => none
  | r :: t =>
    some (match minCreated t with
          | none => r.created_at
          | some m => min r.created_at m)

/-- Maximum of the `created_at` column, `none` on an empty frame
(`chunk.created_at.max()`). -/
def maxCreated : List Req → Option ℤ
  | [] => none
  | r :: t =>
    some (match maxCreated t with
          | none => r.created_at
          | some m => max r.created_at m)

/-- The dictionary built by `MetricsProcessor._process_metrics_chunk`:
keys `total_reqs`, `filled_reqs`, `avg_time_to_hire`, `satisfaction_rate`,
`fill_rate`, `period_start`, `period_end`, `skill_metrics`. -/
structure ChunkMetrics where
  total_reqs : ℕ
  filled_reqs : ℕ
  avg_time_to_hire : ℚ
  satisfaction_rate : ℚ
  fill_rate : ℚ
  period_start : ℤ
  period_end : ℤ
  skill_metrics : String → ℚ

theorem ChunkMetrics.ext_iff {a b : ChunkMetrics} :
    a = b ↔ a.total_reqs = b.total_reqs ∧ a.filled_reqs = b.filled_reqs ∧
      a.avg_time_to_hire = b.avg_time_to_hire ∧
      a.satisfaction_rate = b.satisfaction_rate ∧ a.fill_rate = b.fill_rate ∧
      a.period_start = b.period_start ∧ a.period_end = b.period_end ∧
      a.skill_metrics = b.skill_metrics := by
  constructor
  · rintro rfl; exact ⟨rfl, rfl, rfl, rfl, rfl, rfl, rfl, rfl⟩
  · rcases a with ⟨_, _, _, _, _, _, _, _⟩
    rcases b with ⟨_, _, _, _, _, _, _, _⟩
    rintro ⟨h1, h2, h3, h4, h5, h6, h7, h8⟩
    simp_all

/-- Body of `MetricsProcessor._process_metrics_chunk` on a non-empty chunk:
count, filled count, mean time-to-hire, mean satisfaction,
fill rate `filled/total×100`, period bounds, skill prevalence map. -/
def aggCore (rs : List Req) : ChunkMetrics where
  total_reqs := rs.length
  filled_reqs := countFilled rs
  avg_time_to_hire := qmean (rs.map (fun r => r.time_to_hire))
  satisfaction_rate := qmean (rs.map (fun r => r.satisfaction_score))
  fill_rate := (countFilled rs : ℚ) / (rs.length : ℚ) * 100
  period_start := (minCreated rs).getD 0
  period_end := (maxCreated rs).getD 0
  skill_metrics := skillPct rs

/-- Embedding of `MetricsProcessor._process_metrics_chunk`: on an empty chunk the
expression `len(chunk[chunk.status == filled]) / len(chunk)` raises
`ZeroDivisionError`, so no dictionary is produced (`none`); on a non-empty
chunk it returns the aggregates. -/
def aggregate (rs : List Req) : Option ChunkMetrics :=
  if rs = [] then none else some (aggCore rs)

/-- Modelled from the spec: `MetricsProcessor._combine_processed_chunks` is
called at `data_processing.py:96` but is defined nowhere in `src`.  Per the
spec's merge step it "sums counts across chunks, recomputes fill-rate and
skill percentages from the summed counts (not an average of per-chunk
percentages), and takes `period = (min(chunk.period_start),
max(chunk.period_end))`"; the means are likewise recombined weighted by the
per-chunk counts, and per-chunk skill counts are recovered from the stored
percentages as `pct × n / 100`. Undefined (`none`) on an empty chunk list. -/
def combineChunks : List ChunkMetrics → Option ChunkMetrics
  | [] => none
  | c :: rest =>
    let cs := c :: rest
    let n : ℕ := (cs.map (fun x => x.total_reqs)).sum
    let f : ℕ := (cs.map (fun x => x.filled_reqs)).sum
    some
      { total_reqs := n
        filled_reqs := f
        avg_time_to_hire :=
          (cs.map (fun x => x.avg_time_to_hire * (x.total_reqs : ℚ))).sum / (n : ℚ)
        satisfaction_rate :=
          (cs.map (fun x => x.satisfaction_rate * (x.total_reqs : ℚ))).sum / (n : ℚ)
        fill_rate := (f : ℚ) / (n : ℚ) * 100
        period_start :=
          rest.foldl (fun a x => min a x.period_start) c.period_start
        period_end :=
          rest.foldl (fun a x => max a x.period_end) c.period_end
        skill_metrics := fun s =>
          (cs.map (fun x => x.skill_metrics s * (x.total_reqs : ℚ) / 100)).sum
            / (n : ℚ) * 100 }

/-- Sample requisition records used as concrete inputs. -/
def reqA : Req := ⟨"filled", 30, 4, 100, some 130, ["java"]⟩

def reqB : Req := ⟨"open", 10, 3, 50, none, ["java", "sql"]⟩

def reqC : Req := ⟨"filled", 20, 5, 200, some 220, ["sql"]⟩

/-- Claim C3 as stated is false at the empty record set: the fill-rate
expression divides by `len(chunk) = 0`, so `_process_metrics_chunk` raises
`ZeroDivisionError` and produces no result at all, rather than a result
with fill rate `0`. -/
theorem claim_C3_counterexample : aggregate ([] : List Req) = none := rfl

/-- C3 (amended): for every NON-EMPTY record set, the computed requisition
fill rate equals (records with status "filled") / (total records) × 100 and
lies in [0, 100]; on an empty record set the aggregation fails with a
division-by-zero error instead of returning 0. -/
theorem claim_C3_fill_rate_bounds (rs : List Req) (h : rs ≠ []) :
    ∃ m, aggregate rs = some m ∧
      m.fill_rate = (countFilled rs : ℚ) / (rs.length : ℚ) * 100 ∧
      0 ≤ m.fill_rate ∧ m.fill_rate ≤ 100 := by
  refine ⟨aggCore rs, by simp [aggregate, h], rfl, ?_, ?_⟩
  · have hn : 0 < (rs.length : ℚ) := by
      exact_mod_cast List.length_pos.mpr h
    have h0 : (0 : ℚ) ≤ (countFilled rs : ℚ) := by positivity
    exact mul_nonneg (div_nonneg h0 (le_of_lt hn)) (by norm_num)
  · have hn : 0 < (rs.length : ℚ) := by
      exact_mod_cast List.length_pos.mpr h
    have hc : (countFilled rs : ℚ) ≤ (rs.length : ℚ) := by
      exact_mod_cast List.length_filter_le _ rs
    have h1 : (countFilled rs : ℚ) / (rs.length : ℚ) ≤ 1 :=
      (div_le_one hn).mpr hc
    calc (countFilled rs : ℚ) / (rs.length : ℚ) * 100 ≤ 1 * 100 := by
          exact mul_le_mul_of_nonneg_right h1 (by norm_num)
      _ = 100 := by norm_num

/-- Witness for `claim_C3_fill_rate_bounds` at a concrete two-record set. -/
theorem claim_C3_fill_rate_bounds_witness :
    ∃ m, aggregate [reqA, reqB] = some m ∧
      m.fill_rate = (countFilled [reqA, reqB] : ℚ) / (([reqA, reqB] : List Req).length : ℚ) * 100 ∧
      0 ≤ m.fill_rate ∧ m.fill_rate ≤ 100 :=
  claim_C3_fill_rate_bounds [reqA, reqB] (by simp)

/-! ### Partition invariance of the merge step (C1) -/

/-- Generic fold of a per-record integer column with a binary operation,
`none` on the empty frame; instantiated at `min`/`max` over `created_at`
this is `chunk.created_at.min()` / `.max()`. -/
def colFold (f : ℤ → ℤ → ℤ) (g : Req → ℤ) : List Req → Option ℤ
  | [] => none
  | r :: t =>
    some (match colFold f g t with
          | none => g r
          | some m => f (g r) m)

theorem minCreated_eq_colFold (rs : List Req) :
    minCreated rs = colFold min (fun r => r.created_at) rs := by
  induction rs with
  | nil => rfl
  | cons r t ih => simp [minCreated, colFold, ih]

theorem maxCreated_eq_colFold (rs : List Req) :
    maxCreated rs = colFold max (fun r => r.created_at) rs := by
  induction rs with
  | nil => rfl
  | cons r t ih => simp [maxCreated, colFold, ih]

/-- Merge of two optional column folds. -/
def omerge (f : ℤ → ℤ → ℤ) : Option ℤ → Option ℤ → Option ℤ
  | none, y => y
  | some m, none => some m
  | some m, some k => some (f m k)

theorem colFold_append (f : ℤ → ℤ → ℤ)
    (hf : ∀ a b c, f (f a b) c = f a (f b c)) (g : Req → ℤ)
    (a b : List Req) :
    colFold f g (a ++ b) = omerge f (colFold f g a) (colFold f g b) := by
  induction a with
  | nil => cases hb : colFold f g b <;> simp [colFold, omerge, hb]
  | cons r t ih =>
    cases ht : colFold f g t <;> cases hb : colFold f g b <;>
      simp [colFold, omerge, ih, ht, hb, hf]

theorem colFold_of_ne_nil (f : ℤ → ℤ → ℤ) (g : Req → ℤ)
    (rs : List Req) (h : rs ≠ []) :
    colFold f g rs = some ((colFold f g rs).getD 0) := by
  cases rs with
  | nil => exact absurd rfl h
  | cons r t => rfl

theorem colFold_join_fold (f : ℤ → ℤ → ℤ)
    (hf : ∀ a b c, f (f a b) c = f a (f b c)) (g : Req → ℤ) :
    ∀ (rest : List (List Req)) (acc : ℤ), (∀ x ∈ rest, x ≠ []) →
      omerge f (some acc) (colFold f g rest.flatten) =
        some (rest.foldl (fun a x => f a ((colFold f g x).getD 0)) acc) := by
  intro rest
  induction rest with
  | nil => intro acc _; rfl
  | cons x t ih =>
    intro acc hne
    have hx : x ≠ [] := hne x (List.mem_cons_self x t)
    have hxt : ∀ y ∈ t, y ≠ [] := fun y hy => hne y (List.mem_cons_of_mem x hy)
    rw [List.flatten_cons, colFold_append f hf g,
      colFold_of_ne_nil f g x hx]
    have step :
        omerge f (some acc)
            (omerge f (some ((colFold f g x).getD 0)) (colFold f g t.flatten)) =
          omerge f (some (f acc ((colFold f g x).getD 0)))
            (colFold f g t.flatten) := by
      cases colFold f g t.flatten <;> simp [omerge, hf]
    rw [step, ih (f acc ((colFold f g x).getD 0)) hxt]
    simp [List.foldl_cons]

theorem countFilled_append (a b : List Req) :
    countFilled (a ++ b) = countFilled a + countFilled b := by
  simp [countFilled, List.filter_append]

theorem countFilled_flatten (l : List (List Req)) :
    countFilled l.flatten = (l.map countFilled).sum := by
  induction l with
  | nil => rfl
  | cons a t ih => simp [List.flatten_cons, countFilled_append, ih]

theorem skillCount_append (a b : List Req) (s : String) :
    skillCount (a ++ b) s = skillCount a s + skillCount b s := by
  simp [skillCount, List.filter_append]

theorem skillCount_flatten (l : List (List Req)) (s : String) :
    skillCount l.flatten s = (l.map (fun c => skillCount c s)).sum := by
  induction l with
  | nil => rfl
  | cons a t ih => simp [List.flatten_cons, skillCount_append, ih]

theorem length_cast_ne_zero {rs : List Req} (h : rs ≠ []) :
    ((rs.length : ℚ)) ≠ 0 := by
  have := List.length_pos.mpr h
  exact_mod_cast this.ne'

theorem qmean_mul_length (l : List ℚ) (h : l ≠ []) :
    qmean l * (l.length : ℚ) = l.sum := by
  have hl : ((l.length : ℚ)) ≠ 0 := by
    have := List.length_pos.mpr h
    exact_mod_cast this.ne'
  rw [qmean, div_mul_cancel₀ _ hl]

theorem skillPct_mul_length (rs : List Req) (h : rs ≠ []) (s : String) :
    skillPct rs s * (rs.length : ℚ) / 100 = (skillCount rs s : ℚ) := by
  have hl : ((rs.length : ℚ)) ≠ 0 := by
    have := List.length_pos.mpr h
    exact_mod_cast this.ne'
  rw [skillPct]
  field_simp

theorem mapM_aggregate_of_nonempty (chunks : List (List Req))
    (hall : ∀ c ∈ chunks, c ≠ []) :
    chunks.mapM aggregate = some (chunks.map aggCore) := by
  induction chunks with
  | nil => rfl
  | cons c t ih =>
    have hc : c ≠ [] := hall c (List.mem_cons_self c t)
    have ht : ∀ y ∈ t, y ≠ [] := fun y hy => hall y (List.mem_cons_of_mem c hy)
    have h1 : aggregate c = some (aggCore c) := by simp [aggregate, hc]
    rw [List.mapM_cons, h1, ih ht]
    rfl

theorem sum_totals_map_aggCore (l : List (List Req)) :
    ((l.map aggCore).map (fun x => x.total_reqs)).sum = l.flatten.length := by
  rw [List.map_map, List.length_flatten]
  exact congrArg List.sum (List.map_congr_left (fun ch _ => rfl))

theorem sum_filled_map_aggCore (l : List (List Req)) :
    ((l.map aggCore).map (fun x => x.filled_reqs)).sum = countFilled l.flatten := by
  rw [List.map_map, countFilled_flatten]
  exact congrArg List.sum (List.map_congr_left (fun ch _ => rfl))

theorem map_aggCore_wsum (l : List (List Req)) (g : Req → ℚ)
    (hall : ∀ c ∈ l, c ≠ []) :
    (l.map (fun ch => qmean (ch.map g) * (ch.length : ℚ))).sum =
      (l.flatten.map g).sum := by
  have hcong : l.map (fun ch => qmean (ch.map g) * (ch.length : ℚ)) =
      l.map (fun ch => (ch.map g).sum) := by
    refine List.map_congr_left (fun ch hch => ?_)
    have hne : ch.map g ≠ [] := by
      simp [List.map_eq_nil_iff]
      exact hall ch hch
    have := qmean_mul_length (ch.map g) hne
    simpa using this
  rw [hcong]
  simp only [List.map_flatten, List.sum_flatten, List.map_map]
  rfl

theorem map_aggCore_skill (l : List (List Req)) (s : String)
    (hall : ∀ c ∈ l, c ≠ []) :
    (l.map (fun ch => skillPct ch s * (ch.length : ℚ) / 100)).sum =
      (skillCount l.flatten s : ℚ) := by
  have hcong : l.map (fun ch => skillPct ch s * (ch.length : ℚ) / 100) =
      l.map (fun ch => (skillCount ch s : ℚ)) := by
    refine List.map_congr_left (fun ch hch => ?_)
    exact skillPct_mul_length ch (hall ch hch) s
  rw [hcong, skillCount_flatten]
  rw [Nat.cast_list_sum, List.map_map]
  rfl

theorem period_start_combine (c : List Req) (rest : List (List Req))
    (hc : c ≠ []) (hrest : ∀ x ∈ rest, x ≠ []) :
    (rest.map aggCore).foldl (fun a x => min a x.period_start)
        ((aggCore c).period_start) =
      (minCreated ((c :: rest).flatten)).getD 0 := by
  have hmin : ∀ a b c : ℤ, min (min a b) c = min a (min b c) :=
    fun a b c => min_assoc a b c
  have hLHS : (rest.map aggCore).foldl (fun a x => min a x.period_start)
        ((aggCore c).period_start) =
      rest.foldl
        (fun a x => min a ((colFold min (fun r => r.created_at) x).getD 0))
        ((colFold min (fun r => r.created_at) c).getD 0) := by
    rw [List.foldl_map]
    simp only [aggCore, minCreated_eq_colFold]
  have h2 := colFold_join_fold min hmin (fun r => r.created_at) rest
    ((colFold min (fun r => r.created_at) c).getD 0) hrest
  rw [hLHS, List.flatten_cons, minCreated_eq_colFold,
    colFold_append min hmin (fun r => r.created_at) c rest.flatten,
    colFold_of_ne_nil min (fun r => r.created_at) c hc, h2]
  rfl

theorem period_end_combine (c : List Req) (rest : List (List Req))
    (hc : c ≠ []) (hrest : ∀ x ∈ rest, x ≠ []) :
    (rest.map aggCore).foldl (fun a x => max a x.period_end)
        ((aggCore c).period_end) =
      (maxCreated ((c :: rest).flatten)).getD 0 := by
  have hmax : ∀ a b c : ℤ, max (max a b) c = max a (max b c) :=
    fun a b c => max_assoc a b c
  have hLHS : (rest.map aggCore).foldl (fun a x => max a x.period_end)
        ((aggCore c).period_end) =
      rest.foldl
        (fun a x => max a ((colFold max (fun r => r.created_at) x).getD 0))
        ((colFold max (fun r => r.created_at) c).getD 0) := by
    rw [List.foldl_map]
    simp only [aggCore, maxCreated_eq_colFold]
  have h2 := colFold_join_fold max hmax (fun r => r.created_at) rest
    ((colFold max (fun r => r.created_at) c).getD 0) hrest
  rw [hLHS, List.flatten_cons, maxCreated_eq_colFold,
    colFold_append max hmax (fun r => r.created_at) c rest.flatten,
    colFold_of_ne_nil max (fun r => r.created_at) c hc, h2]
  rfl

theorem combineChunks_cons (c : ChunkMetrics) (rest : List ChunkMetrics) :
    combineChunks (c :: rest) = some
      { total_reqs := ((c :: rest).map (fun x => x.total_reqs)).sum
        filled_reqs := ((c :: rest).map (fun x => x.filled_reqs)).sum
        avg_time_to_hire :=
          ((c :: rest).map
              (fun x => x.avg_time_to_hire * (x.total_reqs : ℚ))).sum /
            ((((c :: rest).map (fun x => x.total_reqs)).sum : ℕ) : ℚ)
        satisfaction_rate :=
          ((c :: rest).map
              (fun x => x.satisfaction_rate * (x.total_reqs : ℚ))).sum /
            ((((c :: rest).map (fun x => x.total_reqs)).sum : ℕ) : ℚ)
        fill_rate :=
          ((((c :: rest).map (fun x => x.filled_reqs)).sum : ℕ) : ℚ) /
            ((((c :: rest).map (fun x => x.total_reqs)).sum : ℕ) : ℚ) * 100
        period_start :=
          rest.foldl (fun a x => min a x.period_start) c.period_start
        period_end :=
          rest.foldl (fun a x => max a x.period_end) c.period_end
        skill_metrics := fun s =>
          ((c :: rest).map
              (fun x => x.skill_metrics s * (x.total_reqs : ℚ) / 100)).sum /
            ((((c :: rest).map (fun x => x.total_reqs)).sum : ℕ) : ℚ) * 100 } := rfl

theorem combineChunks_map_aggCore (c : List Req) (rest : List (List Req))
    (hc : c ≠ []) (hrest : ∀ x ∈ rest, x ≠ []) :
    combineChunks ((c :: rest).map aggCore) =
      some (aggCore (c :: rest).flatten) := by
  have hall : ∀ x ∈ c :: rest, x ≠ [] := by
    intro x hx
    rcases List.mem_cons.mp hx with h | h
    · exact h ▸ hc
    · exact hrest x h
  have htot := sum_totals_map_aggCore (c :: rest)
  have hfil := sum_filled_map_aggCore (c :: rest)
  have htotQ : (((((c :: rest).map aggCore).map
        (fun x => x.total_reqs)).sum : ℕ) : ℚ) =
      (((c :: rest).flatten.length : ℕ) : ℚ) := by exact_mod_cast htot
  have hfilQ : (((((c :: rest).map aggCore).map
        (fun x => x.filled_reqs)).sum : ℕ) : ℚ) =
      ((countFilled ((c :: rest).flatten) : ℕ) : ℚ) := by exact_mod_cast hfil
  have havg : (((c :: rest).map aggCore).map
        (fun x => x.avg_time_to_hire * (x.total_reqs : ℚ))).sum =
      ((c :: rest).flatten.map (fun r => r.time_to_hire)).sum := by
    rw [List.map_map]
    have heq : (c :: rest).map
          ((fun x => x.avg_time_to_hire * (x.total_reqs : ℚ)) ∘ aggCore) =
        (c :: rest).map (fun ch =>
          qmean (ch.map (fun r => r.time_to_hire)) * (ch.length : ℚ)) :=
      List.map_congr_left (fun ch _ => rfl)
    rw [heq, map_aggCore_wsum (c :: rest) (fun r => r.time_to_hire) hall]
  have hsat : (((c :: rest).map aggCore).map
        (fun x => x.satisfaction_rate * (x.total_reqs : ℚ))).sum =
      ((c :: rest).flatten.map (fun r => r.satisfaction_score)).sum := by
    rw [List.map_map]
    have heq : (c :: rest).map
          ((fun x => x.satisfaction_rate * (x.total_reqs : ℚ)) ∘ aggCore) =
        (c :: rest).map (fun ch =>
          qmean (ch.map (fun r => r.satisfaction_score)) * (ch.length : ℚ)) :=
      List.map_congr_left (fun ch _ => rfl)
    rw [heq, map_aggCore_wsum (c :: rest) (fun r => r.satisfaction_score) hall]
  rw [List.map_cons, combineChunks_cons, ← List.map_cons aggCore c rest]
  refine congrArg some ?_
  rw [ChunkMetrics.ext_iff]
  refine ⟨?_, ?_, ?_, ?_, ?_, ?_, ?_, ?_⟩
  · exact htot
  · exact hfil
  · show (((c :: rest).map aggCore).map
          (fun x => x.avg_time_to_hire * (x.total_reqs : ℚ))).sum /
        (((((c :: rest).map aggCore).map (fun x => x.total_reqs)).sum : ℕ) : ℚ) =
      qmean ((c :: rest).flatten.map (fun r => r.time_to_hire))
    rw [havg, htotQ, qmean, List.length_map]
  · show (((c :: rest).map aggCore).map
          (fun x => x.satisfaction_rate * (x.total_reqs : ℚ))).sum /
        (((((c :: rest).map aggCore).map (fun x => x.total_reqs)).sum : ℕ) : ℚ) =
      qmean ((c :: rest).flatten.map (fun r => r.satisfaction_score))
    rw [hsat, htotQ, qmean, List.length_map]
  · show (((((c :: rest).map aggCore).map (fun x => x.filled_reqs)).sum : ℕ) : ℚ) /
        (((((c :: rest).map aggCore).map (fun x => x.total_reqs)).sum : ℕ) : ℚ) * 100 =
      (countFilled ((c :: rest).flatten) : ℚ) /
        (((c :: rest).flatten.length : ℕ) : ℚ) * 100
    rw [htotQ, hfilQ]
  · exact period_start_combine c rest hc hrest
  · exact period_end_combine c rest hc hrest
  · funext s
    have hsk : (((c :: rest).map aggCore).map
          (fun x => x.skill_metrics s * (x.total_reqs : ℚ) / 100)).sum =
        (skillCount ((c :: rest).flatten) s : ℚ) := by
      rw [List.map_map]
      have heq : (c :: rest).map
            ((fun x => x.skill_metrics s * (x.total_reqs : ℚ) / 100) ∘ aggCore) =
          (c :: rest).map (fun ch => skillPct ch s * (ch.length : ℚ) / 100) :=
        List.map_congr_left (fun ch _ => rfl)
      rw [heq, map_aggCore_skill (c :: rest) s hall]
    show (((c :: rest).map aggCore).map
          (fun x => x.skill_metrics s * (x.total_reqs : ℚ) / 100)).sum /
        (((((c :: rest).map aggCore).map (fun x => x.total_reqs)).sum : ℕ) : ℚ) * 100 =
      skillPct ((c :: rest).flatten) s
    rw [hsk, htotQ]
    rfl

/-- C1: partition invariance of the merge step. For every set of
requisition records split into non-empty chunks, running
`_process_metrics_chunk` on each chunk and combining the per-chunk results
(summing counts, recomputing fill-rate, means and skill percentages from
the summed counts, period = min of starts / max of ends) gives exactly the
aggregate of the whole unpartitioned set. -/
theorem claim_C1_partition_invariance (chunks : List (List Req))
    (hne : chunks ≠ []) (hall : ∀ c ∈ chunks, c ≠ []) :
    ∃ l, chunks.mapM aggregate = some l ∧
      combineChunks l = aggregate chunks.flatten := by
  refine ⟨chunks.map aggCore, mapM_aggregate_of_nonempty chunks hall, ?_⟩
  cases chunks with
  | nil => exact absurd rfl hne
  | cons c rest =>
    have hc : c ≠ [] := hall c (List.mem_cons_self c rest)
    have hrest : ∀ x ∈ rest, x ≠ [] :=
      fun x hx => hall x (List.mem_cons_of_mem c hx)
    have hflat : (c :: rest).flatten ≠ [] := by
      rw [List.flatten_cons]
      intro h
      exact hc (List.append_eq_nil.mp h).1
    rw [combineChunks_map_aggCore c rest hc hrest]
    rw [aggregate, if_neg hflat]

/-- Witness for `claim_C1_partition_invariance`: a concrete three-record
set partitioned into two chunks. -/
theorem claim_C1_partition_invariance_witness :
    ∃ l, ([[reqA], [reqB, reqC]] : List (List Req)).mapM aggregate = some l ∧
      combineChunks l = aggregate ([[reqA], [reqB, reqC]] : List (List Req)).flatten :=
  claim_C1_partition_invariance [[reqA], [reqB, reqC]] (by simp)
    (by intro c hc; fin_cases hc <;> simp)

/-! ### Trend points with confidence intervals (C4) -/

/-- Sample variance with `ddof = 1` (the pandas `Series.std` default):
`Σ (x - mean)² / (n - 1)`; only meaningful for `n ≥ 2`. -/
def sampleVar (l : List ℚ) : ℚ :=
  (l.map (fun x => (x - qmean l) ^ 2)).sum / ((l.length : ℚ) - 1)

/-- Embedding of `group.time_to_hire.std()` in `_calculate_trends`: pandas returns NaN
(here `none`) for fewer than two values, otherwise `√(sample variance)`. -/
noncomputable def sampleStd (l : List ℚ) : Option ℝ :=
  if l.length ≤ 1 then none else some (Real.sqrt ((sampleVar l : ℚ) : ℝ))

/-- Embedding of `confidence = 1.96 * std_dev / np.sqrt(len(group))`; NaN (modelled as
`none`) propagates from the standard deviation. -/
noncomputable def trendConfidence (l : List ℚ) : Option ℝ :=
  match sampleStd l with
  | none => none
  | some s => some (1.96 * s / Real.sqrt ((l.length : ℚ) : ℝ))

/-- A trend data point (`TrendPoint` in `analytics_types.py`); `confidence`
is an `Option ℝ` whose `none` models the float NaN. -/
structure TrendPointE where
  date : ℤ
  value : ℚ
  confidence : Option ℝ

/-- The trend point `_calculate_trends` appends for one non-empty group:
`{date: bucket, value: mean(time_to_hire), confidence: 1.96*std/sqrt(n)}`. -/
noncomputable def mkTrendPoint (bucket : ℤ) (g : List Req) : TrendPointE where
  date := bucket
  value := qmean (g.map (fun r => r.time_to_hire))
  confidence := trendConfidence (g.map (fun r => r.time_to_hire))

/-- The distinct bucket keys of a record set in ascending order; with
`bucketOf` mapping a timestamp to its week this is the set of non-empty
groups generated by `df.groupby(pd.Grouper(key=created_at, freq=W))`
(the code explicitly skips the empty groups of the `Grouper` range). -/
def bucketKeys (bucketOf : ℤ → ℤ) (rs : List Req) : List ℤ :=
  ((rs.map (fun r => bucketOf r.created_at)).dedup).insertionSort (· ≤ ·)

/-- Embedding of `MetricsProcessor._calculate_trends`, parameterised by the calendar
function `bucketOf` that sends a timestamp to its week bucket. -/
noncomputable def calcTrends (bucketOf : ℤ → ℤ) (rs : List Req) :
    List TrendPointE :=
  (bucketKeys bucketOf rs).map (fun k =>
    mkTrendPoint k (rs.filter (fun r => bucketOf r.created_at = k)))

/-- Claim C4 as stated is false for a one-record bucket: pandas `std()` with
`ddof = 1` is NaN for a single value, so the emitted confidence is NaN
(modelled `none`), not `0`. -/
theorem claim_C4_counterexample :
    (calcTrends (fun t => t) [reqA]).map (fun tp => tp.confidence) =
        [none] ∧ (none : Option ℝ) ≠ some 0 := by
  constructor
  · rfl
  · simp

/-- C4 (amended): for every non-empty time bucket the trend point's value
is the bucket mean of `time_to_hire`; for a bucket with at least two
records the confidence `1.96 × stddev / √n` is a real number `≥ 0`; but
for a bucket with exactly one record the confidence is NaN (the sample
standard deviation is NaN, which propagates), not 0. -/
theorem claim_C4_confidence (k : ℤ) (g : List Req) (_hne : g ≠ []) :
    (mkTrendPoint k g).value = qmean (g.map (fun r => r.time_to_hire)) ∧
      (g.length = 1 → (mkTrendPoint k g).confidence = none) ∧
      (2 ≤ g.length →
        ∃ c : ℝ, (mkTrendPoint k g).confidence = some c ∧ 0 ≤ c) := by
  refine ⟨rfl, ?_, ?_⟩
  · intro h1
    have hlen : g.length ≤ 1 := Nat.le_of_eq h1
    simp only [mkTrendPoint, trendConfidence, sampleStd, List.length_map]
    rw [if_pos hlen]
  · intro h2
    have hlen : ¬ g.length ≤ 1 := by omega
    simp only [mkTrendPoint, trendConfidence, sampleStd, List.length_map]
    rw [if_neg hlen]
    exact ⟨_, rfl, by positivity⟩

/-- Witness for `claim_C4_confidence` at a concrete two-record bucket. -/
theorem claim_C4_confidence_witness :
    (mkTrendPoint 0 [reqA, reqC]).value =
        qmean (([reqA, reqC] : List Req).map (fun r => r.time_to_hire)) ∧
      (([reqA, reqC] : List Req).length = 1 →
        (mkTrendPoint 0 [reqA, reqC]).confidence = none) ∧
      (2 ≤ ([reqA, reqC] : List Req).length →
        ∃ c : ℝ, (mkTrendPoint 0 [reqA, reqC]).confidence = some c ∧ 0 ≤ c) :=
  claim_C4_confidence 0 [reqA, reqC] (by simp)

/-! ### Seasonal indices (C9) -/

/-- Extended float value: models the numpy float64 results NaN, `inf`,
`-inf` and finite values. -/
inductive EF where
  | nan : EF
  | inf : EF
  | ninf : EF
  | val : ℚ → EF
  deriving DecidableEq, Repr

/-- numpy float64 division `a / b`: finite quotient when `b ≠ 0`;
`0.0/0.0` is NaN; `a/0.0` is `±inf` by the sign of `a` (a warning, not an
exception). -/
def efDiv (a b : ℚ) : EF :=
  if b = 0 then
    (if a = 0 then EF.nan else if 0 < a then EF.inf else EF.ninf)
  else EF.val (a / b)

/-- The distinct month keys present in the record set, ascending
(`df.groupby(df.created_at.dt.month)` yields its keys sorted). -/
def monthsOf (monthOf : ℤ → ℤ) (rs : List Req) : List ℤ :=
  ((rs.map (fun r => monthOf r.created_at)).dedup).insertionSort (· ≤ ·)

/-- Embedding of `MetricsProcessor._analyze_seasonality`, parameterised by the calendar
function `monthOf` that sends a timestamp to its month number: computes the
global mean of `time_to_hire`, groups by month, and emits
`month_mean / global_mean` for every month present in the data. -/
def analyzeSeasonality (monthOf : ℤ → ℤ) (rs : List Req) : List (ℤ × EF) :=
  let gm := qmean (rs.map (fun r => r.time_to_hire))
  (monthsOf monthOf rs).map (fun m =>
    (m, efDiv
      (qmean ((rs.filter (fun r => monthOf r.created_at = m)).map
        (fun r => r.time_to_hire)))
      gm))

/-- A record whose `time_to_hire` is 0, giving a zero global mean. -/
def reqZ : Req := ⟨"open", 0, 0, 1, none, []⟩

theorem qmean_reqZ :
    qmean (([reqZ] : List Req).map (fun r => r.time_to_hire)) = 0 := by
  simp [qmean, reqZ]

theorem seasonality_reqZ_eq :
    analyzeSeasonality (fun t => t) [reqZ] = [(1, EF.nan)] := by
  simp [analyzeSeasonality, monthsOf, reqZ, efDiv, qmean,
    List.insertionSort, List.orderedInsert]

/-- Claim C9 as stated is false when the global mean is 0: the code still emits
an entry for each month, with value `avg / 0.0` (NaN for `0.0/0.0`, ±inf
otherwise) — nothing is excluded from the returned map. -/
theorem claim_C9_counterexample :
    qmean (([reqZ] : List Req).map (fun r => r.time_to_hire)) = 0 ∧
      analyzeSeasonality (fun t => t) [reqZ] = [(1, EF.nan)] :=
  ⟨qmean_reqZ, seasonality_reqZ_eq⟩

/-- C9 (amended): seasonal indices are computed as global mean, group by
calendar period, emit `period_mean / global_mean` per period; one entry is
emitted for every period present in the data regardless of the global
mean — when the global mean is 0 the entries are NOT excluded but carry the
non-finite value NaN (`0.0/0.0`) or ±inf. -/
theorem claim_C9_seasonal_indices (monthOf : ℤ → ℤ) (rs : List Req)
    (p : ℤ × EF) (hp : p ∈ analyzeSeasonality monthOf rs) :
    (analyzeSeasonality monthOf rs).length = (monthsOf monthOf rs).length ∧
      (qmean (rs.map (fun r => r.time_to_hire)) ≠ 0 →
        p.2 = EF.val
          (qmean ((rs.filter (fun r => monthOf r.created_at = p.1)).map
            (fun r => r.time_to_hire)) /
           qmean (rs.map (fun r => r.time_to_hire)))) ∧
      (qmean (rs.map (fun r => r.time_to_hire)) = 0 →
        (p.2 = EF.nan ∨ p.2 = EF.inf ∨ p.2 = EF.ninf)) := by
  rcases List.mem_map.mp hp with ⟨m, _, rfl⟩
  refine ⟨by simp [analyzeSeasonality], ?_, ?_⟩
  · intro hgm
    simp [efDiv, hgm]
  · intro hgm
    by_cases ha : qmean ((rs.filter (fun r => monthOf r.created_at = m)).map
        (fun r => r.time_to_hire)) = 0
    · simp [efDiv, hgm, ha]
    · rcases lt_or_gt_of_ne ha with hlt | hgt
      · simp [efDiv, hgm, ha, not_lt.mpr (le_of_lt hlt)]
      · simp [efDiv, hgm, ha, hgt]

/-- Witness for `claim_C9_seasonal_indices` at a concrete record set whose
global mean is 0 and whose only entry is NaN. -/
theorem claim_C9_seasonal_indices_witness :
    (analyzeSeasonality (fun t => t) [reqZ]).length =
        (monthsOf (fun t => t) [reqZ]).length ∧
      (qmean (([reqZ] : List Req).map (fun r => r.time_to_hire)) ≠ 0 →
        ((1 : ℤ), EF.nan).2 = EF.val
          (qmean ((([reqZ] : List Req).filter
              (fun r => (fun t => t) r.created_at = ((1 : ℤ), EF.nan).1)).map
            (fun r => r.time_to_hire)) /
           qmean (([reqZ] : List Req).map (fun r => r.time_to_hire)))) ∧
      (qmean (([reqZ] : List Req).map (fun r => r.time_to_hire)) = 0 →
        (((1 : ℤ), EF.nan).2 = EF.nan ∨ ((1 : ℤ), EF.nan).2 = EF.inf ∨
          ((1 : ℤ), EF.nan).2 = EF.ninf)) :=
  claim_C9_seasonal_indices (fun t => t) [reqZ] (1, EF.nan)
    (by rw [seasonality_reqZ_eq]; exact List.mem_singleton.mpr rfl)

/-! ### The transform stage of `ETLService` (C5, C10) -/

/-- The `RecruitmentMetrics` object built at the end of
`process_recruitment_metrics` (the generated `id`/`created_at=now` fields,
which are fresh on every call, are omitted from the embedding). -/
structure RecruitmentMetricsR where
  total_requisitions : ℕ
  filled_requisitions : ℕ
  average_time_to_hire : ℚ
  client_satisfaction_rate : ℚ
  requisition_fill_rate : ℚ
  period_start : ℤ
  period_end : ℤ
  skill_based_metrics : String → ℚ

/-- Fixed-size slicing `for chunk_start in range(0, len(df), chunk_size)`
(each emitted slice is non-empty; zero slices for an empty frame). -/
def chunksOfAux (size : ℕ) : ℕ → List α → List (List α)
  | 0, _ => []
  | _ + 1, [] => []
  | fuel + 1, l => l.take size :: chunksOfAux size fuel (l.drop size)

def chunksOf (size : ℕ) (l : List α) : List (List α) :=
  chunksOfAux size l.length l

/-- Embedding of `MetricsProcessor.process_recruitment_metrics` (caching disabled state):
on an empty record list `pd.DataFrame([]).astype({...})` raises a
`KeyError` (the dtype columns do not exist), re-raised as `ValueError`;
otherwise the records are processed in chunks of 10000 and combined. -/
def processRecruitmentMetrics (records : List Req) :
    Except String RecruitmentMetricsR :=
  if records = [] then
    .error "Error processing recruitment metrics: requisition_id not found in columns"
  else
    match (chunksOf 10000 records).mapM aggregate with
    | none =>
      .error "Error processing recruitment metrics: division by zero"
    | some aggs =>
      match combineChunks aggs with
      | none => .error "Error processing recruitment metrics: no chunks"
      | some m =>
        .ok { total_requisitions := m.total_reqs
              filled_requisitions := m.filled_reqs
              average_time_to_hire := m.avg_time_to_hire
              client_satisfaction_rate := m.satisfaction_rate
              requisition_fill_rate := m.fill_rate
              period_start := m.period_start
              period_end := m.period_end
              skill_based_metrics := m.skill_metrics }

/-- Mean as a float value (`Series.mean` is NaN on an empty series). -/
def efMean (l : List ℚ) : EF :=
  if l = [] then EF.nan else EF.val (qmean l)

/-- Embedding of `Series.median` of a non-empty list: middle element of the sorted
list, or the mean of the two middle elements. -/
def qmedianVal (l : List ℚ) : ℚ :=
  let s := l.insertionSort (· ≤ ·)
  if s.length % 2 = 1 then s.getD (s.length / 2) 0
  else (s.getD (s.length / 2 - 1) 0 + s.getD (s.length / 2) 0) / 2

def efMedian (l : List ℚ) : EF :=
  if l = [] then EF.nan else EF.val (qmedianVal l)

/-- Embedding of `TimeToHireAnalytics` of `analytics_types.py`. -/
structure TimeToHireA where
  average_days : EF
  median_days : EF
  trend_data : List TrendPointE
  seasonal_patterns : List (ℤ × EF)

/-- Embedding of `MetricsProcessor.analyze_time_to_hire`, parameterised by the calendar
functions `weekOf`/`monthOf`: fails on an empty record list (the `astype`
on a column-less frame raises, re-raised as `ValueError`), otherwise
filters by the date range and computes mean, median, trends and
seasonality. -/
noncomputable def analyzeTimeToHire (weekOf monthOf : ℤ → ℤ)
    (records : List Req) (dr : ℤ × ℤ) : Except String TimeToHireA :=
  if records = [] then
    .error "Error analyzing time to hire: created_at not found in columns"
  else
    let df := records.filter (fun r => dr.1 ≤ r.created_at ∧ r.created_at ≤ dr.2)
    .ok { average_days := efMean (df.map (fun r => r.time_to_hire))
          median_days := efMedian (df.map (fun r => r.time_to_hire))
          trend_data := calcTrends weekOf df
          seasonal_patterns := analyzeSeasonality monthOf df }

/-- Modelled from the spec: `MetricsProcessor.analyze_skills_data` is
called at `etl_service.py:302` but is defined nowhere in `src`.  Per the
spec's Metrics Processor "skill-demand tabulation", it tallies for each
skill occurring in the candidate chunk the number of candidates listing
it. -/
def analyzeSkillsData (cands : List Cand) : List (String × ℕ) :=
  ((cands.map (fun c => c.skills)).flatten).dedup.map
    (fun s => (s, (cands.filter (fun c => s ∈ c.skills)).length))

/-- Output of one worker task of `ETLService._process_metrics_chunk`:
three one-row frames. -/
structure ChunkOut where
  metrics : RecruitmentMetricsR
  skills : List (String × ℕ)
  time_to_hire : TimeToHireA

/-- Embedding of `ETLService._process_metrics_chunk`: recruitment metrics on the
requisition chunk, skills analytics on the candidate chunk, then
time-to-hire analytics over `DateRange(min created_at, max created_at)`
of the requisition chunk.  `comm_df` is passed but never used by the
source body. -/
noncomputable def processMetricsChunkS (weekOf monthOf : ℤ → ℤ)
    (reqChunk : List Req) (candChunk : List Cand) (_comms : List Comm) :
    Except String ChunkOut :=
  match processRecruitmentMetrics reqChunk with
  | .error e => .error e
  | .ok metrics =>
    let skills := analyzeSkillsData candChunk
    match analyzeTimeToHire weekOf monthOf reqChunk
        ((minCreated reqChunk).getD 0, (maxCreated reqChunk).getD 0) with
    | .error e => .error e
    | .ok tth => .ok ⟨metrics, skills, tth⟩

/-- Sizes of the sections produced by `np.array_split(l, k)`: the first
`len % k` sections have size `len / k + 1`, the rest size `len / k`. -/
def splitSizes (n k : ℕ) : List ℕ :=
  (List.range k).map (fun i => if i < n % k then n / k + 1 else n / k)

def takeChunks : List ℕ → List α → List (List α)
  | [], _ => []
  | s :: ss, l => l.take s :: takeChunks ss (l.drop s)

/-- Embedding of `np.array_split(l, k)` (for `k = 0` numpy raises instead; callers
guard). -/
def arraySplit (l : List α) (k : ℕ) : List (List α) :=
  takeChunks (splitSizes l.length k) l

/-- Embedding of `asyncio.gather(*tasks)` without `return_exceptions`: all results if
every task succeeded, otherwise the first failure. -/
def gatherE : List (Except String α) → Except String (List α)
  | [] => .ok []
  | .error e :: _ => .error e
  | .ok a :: rest =>
    match gatherE rest with
    | .error e => .error e
    | .ok as => .ok (a :: as)

/-- The first `.error` among a list of task results, if any. -/
def firstError : List (Except String α) → Option String
  | [] => none
  | .error e :: _ => some e
  | .ok _ :: rest => firstError rest

/-- The transformed-data dictionary: `pd.concat` of the per-chunk one-row
frames, i.e. one row per chunk in chunk order. -/
structure Transformed where
  recruitment_metrics : List RecruitmentMetricsR
  skill_analytics : List (List (String × ℕ))
  time_to_hire : List TimeToHireA

/-- The per-chunk worker tasks created by `ETLService.transform_metrics_data`:
requisitions and candidates are split into `workers` sections, task `i`
processes section `i` (communications passed whole). -/
noncomputable def taskResults (weekOf monthOf : ℤ → ℤ) (raw : Bundle)
    (workers : ℕ) : List (Except String ChunkOut) :=
  let reqChunks := arraySplit raw.requisitions workers
  let candChunks := arraySplit raw.candidates workers
  (List.range workers).map (fun i =>
    processMetricsChunkS weekOf monthOf (reqChunks.getD i [])
      (candChunks.getD i []) raw.communications)

/-- Embedding of `ETLService.transform_metrics_data`: splits into `workers` chunks,
gathers the task results, and concatenates the per-chunk frames; any
failure is re-raised wrapped in the transform error message (with
`workers = 0`, `np.array_split` itself raises). -/
noncomputable def transformMetricsData (weekOf monthOf : ℤ → ℤ)
    (raw : Bundle) (workers : ℕ) : Except String Transformed :=
  if workers = 0 then
    .error "Error transforming metrics data: number sections must be larger than 0"
  else
    match gatherE (taskResults weekOf monthOf raw workers) with
    | .error e => .error ("Error transforming metrics data: " ++ e)
    | .ok outs =>
      .ok { recruitment_metrics := outs.map (fun o => o.metrics)
            skill_analytics := outs.map (fun o => o.skills)
            time_to_hire := outs.map (fun o => o.time_to_hire) }

theorem gatherE_error_of_firstError :
    ∀ (l : List (Except String α)) (e : String),
      firstError l = some e → gatherE l = .error e := by
  intro l
  induction l with
  | nil => intro e h; exact Option.noConfusion h
  | cons x rest ih =>
    intro e h
    cases x with
    | error e2 =>
      have : e2 = e := by simpa [firstError] using h
      subst this
      rfl
    | ok a =>
      have h2 : firstError rest = some e := by simpa [firstError] using h
      simp [gatherE, ih e h2]

theorem gatherE_error_of_exists :
    ∀ (l : List (Except String α)),
      (∃ x ∈ l, ∃ e, x = .error e) → ∃ e, gatherE l = .error e := by
  intro l
  induction l with
  | nil => rintro ⟨x, hx, _⟩; exact absurd hx (List.not_mem_nil x)
  | cons x rest ih =>
    rintro ⟨y, hy, e, rfl⟩
    rcases List.mem_cons.mp hy with h | h
    · exact ⟨e, by rw [← h]; rfl⟩
    · obtain ⟨e2, hg⟩ := ih ⟨_, h, e, rfl⟩
      cases x with
      | error e3 => exact ⟨e3, rfl⟩
      | ok a => exact ⟨e2, by simp [gatherE, hg]⟩

/-- C5: the transform stage is all-or-nothing — if any chunk worker task
fails, `transform_metrics_data` fails with the first observed task failure
wrapped in the transform error message, and no transformed bundle (not even
a partial one) is returned. -/
theorem claim_C5_all_or_nothing (weekOf monthOf : ℤ → ℤ) (raw : Bundle)
    (workers : ℕ) (e : String)
    (h : firstError (taskResults weekOf monthOf raw workers) = some e) :
    transformMetricsData weekOf monthOf raw workers =
        .error ("Error transforming metrics data: " ++ e) ∧
      ∀ t, transformMetricsData weekOf monthOf raw workers ≠ .ok t := by
  have hw : workers ≠ 0 := by
    intro h0
    subst h0
    simp [taskResults, firstError] at h
  have hg := gatherE_error_of_firstError _ _ h
  have h1 : transformMetricsData weekOf monthOf raw workers =
      .error ("Error transforming metrics data: " ++ e) := by
    simp [transformMetricsData, hw, hg]
  exact ⟨h1, fun t hc => by rw [h1] at hc; exact Except.noConfusion hc⟩

/-- A bundle with a single requisition and no candidates. -/
def rawSingle : Bundle := ⟨[reqA], [], []⟩

/-- Witness for `claim_C5_all_or_nothing`: with one requisition and two
workers, the second chunk is empty and its task fails. -/
theorem claim_C5_all_or_nothing_witness :
    transformMetricsData (fun t => t) (fun t => t) rawSingle 2 =
        .error ("Error transforming metrics data: " ++
          "Error processing recruitment metrics: requisition_id not found in columns") ∧
      ∀ t, transformMetricsData (fun t => t) (fun t => t) rawSingle 2 ≠ .ok t :=
  claim_C5_all_or_nothing (fun t => t) (fun t => t) rawSingle 2
    "Error processing recruitment metrics: requisition_id not found in columns" rfl

theorem takeChunks_getD_nil :
    ∀ (ss : List ℕ) (l : List α) (i : ℕ), i < ss.length →
      ss.getD i 0 = 0 → (takeChunks ss l).getD i [] = [] := by
  intro ss
  induction ss with
  | nil => intro l i h _; exact absurd h (by simp)
  | cons s t ih =>
    intro l i hi hz
    cases i with
    | zero =>
      have : s = 0 := by simpa using hz
      simp [takeChunks, this]
    | succ j =>
      have hj : j < t.length := by simpa using hi
      have hzj : t.getD j 0 = 0 := by simpa using hz
      simpa [takeChunks] using ih (l.drop s) j hj hzj

theorem splitSizes_length (n k : ℕ) : (splitSizes n k).length = k := by
  simp [splitSizes]

theorem splitSizes_getD (n k i : ℕ) (h : i < k) :
    (splitSizes n k).getD i 0 =
      if i < n % k then n / k + 1 else n / k := by
  simp [splitSizes, List.getD, List.getElem?_map, List.getElem?_range, h]

theorem arraySplit_getD_nil (l : List α) (k i : ℕ)
    (h1 : l.length ≤ i) (h2 : i < k) :
    (arraySplit l k).getD i [] = [] := by
  have hk : l.length < k := lt_of_le_of_lt h1 h2
  apply takeChunks_getD_nil
  · rw [splitSizes_length]; exact h2
  · rw [splitSizes_getD _ _ _ h2, Nat.mod_eq_of_lt hk, Nat.div_eq_of_lt hk]
    simp [Nat.not_lt.mpr h1]

/-- C10: whenever the requisition list has fewer records than the worker
count (in particular for an empty bundle), some chunk handed to a worker is
empty, its task fails (the empty frame cannot be cast / reduced), and the
whole transform operation errors out with no metrics output. -/
theorem claim_C10_small_bundle_fails (weekOf monthOf : ℤ → ℤ) (raw : Bundle)
    (workers : ℕ) (h : raw.requisitions.length < workers) :
    ∃ e, transformMetricsData weekOf monthOf raw workers = .error e := by
  have hw : workers ≠ 0 := by omega
  have hi : workers - 1 < workers := by omega
  have hlen : raw.requisitions.length ≤ workers - 1 := by omega
  have hchunk : (arraySplit raw.requisitions workers).getD (workers - 1) [] = [] :=
    arraySplit_getD_nil _ _ _ hlen hi
  have hunfold : taskResults weekOf monthOf raw workers =
      (List.range workers).map (fun i =>
        processMetricsChunkS weekOf monthOf
          ((arraySplit raw.requisitions workers).getD i [])
          ((arraySplit raw.candidates workers).getD i [])
          raw.communications) := rfl
  have htask : processMetricsChunkS weekOf monthOf
      ((arraySplit raw.requisitions workers).getD (workers - 1) [])
      ((arraySplit raw.candidates workers).getD (workers - 1) [])
      raw.communications =
      .error "Error processing recruitment metrics: requisition_id not found in columns" := by
    rw [hchunk]
    rfl
  have hmem : (.error "Error processing recruitment metrics: requisition_id not found in columns" :
      Except String ChunkOut) ∈ taskResults weekOf monthOf raw workers := by
    rw [hunfold]
    exact List.mem_map.mpr ⟨workers - 1, List.mem_range.mpr hi, htask⟩
  obtain ⟨e, hg⟩ := gatherE_error_of_exists _ ⟨_, hmem, _, rfl⟩
  exact ⟨"Error transforming metrics data: " ++ e, by
    simp [transformMetricsData, hw, hg]⟩

/-- Witness for `claim_C10_small_bundle_fails`: one requisition, two
workers. -/
theorem claim_C10_small_bundle_fails_witness :
    ∃ e, transformMetricsData (fun t => t) (fun t => t) rawSingle 2 = .error e :=
  claim_C10_small_bundle_fails (fun t => t) (fun t => t) rawSingle 2
    (by simp [rawSingle, reqA])

/-! ### Extraction with TTL cache (C7) and loading (C6) -/

/-- A row of `analytics.recruitment_metrics` as inserted by
`load_analytics_data`. -/
structure MRow where
  requisition_id : String
  time_to_hire : ℚ
  fill_rate : ℚ
  satisfaction_score : ℚ
  created_at : ℤ
  deriving DecidableEq, Repr

/-- A row of `analytics.skill_metrics` as inserted by
`load_analytics_data`. -/
structure SRow where
  skill_name : String
  demand_count : ℤ
  growth_rate : ℚ
  created_at : ℤ
  deriving DecidableEq, Repr

/-- One entry of the extraction `TTLCache`. -/
structure CacheEntry where
  key : ℤ × ℤ
  value : Bundle
  insertedAt : ℤ
  deriving DecidableEq, Repr

/-- External environment of the service: deterministic store contents per
date range and failure oracles indexed by call number (`none` = the call
succeeds, `some msg` = the driver raises `msg`). -/
structure Env where
  pgData : ℤ → ℤ → List Req
  candData : ℤ → ℤ → List Cand
  commData : ℤ → ℤ → List Comm
  pgFailAt : ℕ → Option String
  esFailAt : ℕ → Option String

/-- Observable state threaded through the service: store call counters,
the extraction `TTLCache` contents, the metrics processor's
`_processing_stats[cache_hits]` counter (the only cache-hit counter
anywhere in the service; the extraction `TTLCache` keeps none), and the
contents of the two sinks. -/
structure EtlState where
  pgCalls : ℕ
  mongoCalls : ℕ
  esCalls : ℕ
  cache : List CacheEntry
  mpCacheHits : ℕ
  metricsRows : List MRow
  skillRows : List SRow
  esDocs : List MRow
  deriving DecidableEq, Repr

/-- The extraction cache TTL: `TTLCache(maxsize=100, ttl=3600)`. -/
def cacheTTL : ℤ := 3600

/-- Embedding of `cache_key in self._cache` for a `TTLCache`: an entry is visible while
its age is below the TTL (expired entries behave as absent). -/
def cacheLookup (cache : List CacheEntry) (k : ℤ × ℤ) (now : ℤ) :
    Option Bundle :=
  (cache.find? (fun e =>
    decide (e.key = k ∧ now - e.insertedAt < cacheTTL))).map (fun e => e.value)

/-- Embedding of `ETLService.extract_recruitment_data`: cache key from the date range;
on a hit the cached bundle is returned immediately with no store access;
on a miss the requisitions (PostgreSQL, one query) and the candidates and
communications (MongoDB, two cursors) are read, the bundle is assembled,
cached with the current time, and returned; an upstream failure is
re-raised wrapped in the extraction error message. -/
def extractRecruitmentData (env : Env) (now : ℤ) (dr : ℤ × ℤ)
    (s : EtlState) : Except String Bundle × EtlState :=
  match cacheLookup s.cache dr now with
  | some b => (.ok b, s)
  | none =>
    match env.pgFailAt s.pgCalls with
    | some msg =>
      (.error ("Error extracting recruitment data: " ++ msg),
       { s with pgCalls := s.pgCalls + 1 })
    | none =>
      (.ok ⟨env.pgData dr.1 dr.2, env.candData dr.1 dr.2, env.commData dr.1 dr.2⟩,
       { s with
          pgCalls := s.pgCalls + 1
          mongoCalls := s.mongoCalls + 2
          cache := ⟨dr, ⟨env.pgData dr.1 dr.2, env.candData dr.1 dr.2,
            env.commData dr.1 dr.2⟩, now⟩ :: s.cache })

/-- Embedding of `ETLService.load_analytics_data`: one relational transaction inserting
the metrics rows and then the skill rows (rolled back entirely if either
insert fails, leaving the search sink untouched); only after the commit is
the Elasticsearch bulk index issued, and its failure is reported without
rolling the committed relational write back. -/
def loadAnalyticsData (env : Env) (mrows : List MRow) (srows : List SRow)
    (s : EtlState) : Except String Bool × EtlState :=
  match env.pgFailAt s.pgCalls with
  | some msg =>
    (.error ("Error loading analytics data: " ++ msg),
     { s with pgCalls := s.pgCalls + 1 })
  | none =>
    match env.pgFailAt (s.pgCalls + 1) with
    | some msg =>
      (.error ("Error loading analytics data: " ++ msg),
       { s with pgCalls := s.pgCalls + 2 })
    | none =>
      match env.esFailAt s.esCalls with
      | some msg =>
        (.error ("Error loading analytics data: " ++ msg),
         { s with
            pgCalls := s.pgCalls + 2
            metricsRows := s.metricsRows ++ mrows
            skillRows := s.skillRows ++ srows
            esCalls := s.esCalls + 1 })
      | none =>
        (.ok true,
         { s with
            pgCalls := s.pgCalls + 2
            metricsRows := s.metricsRows ++ mrows
            skillRows := s.skillRows ++ srows
            esCalls := s.esCalls + 1
            esDocs := s.esDocs ++ mrows })

/-- C6: ordering and atomicity of the loader, by cases on which operation
fails first. If either relational insert fails, the transaction is rolled
back (sink rows unchanged), the call errors, and the search sink is never
touched (`esCalls`/`esDocs` unchanged). If both inserts succeed the rows
are committed and only then is the bulk index attempted; if the bulk index
fails the call errors but the committed relational rows remain. -/
theorem claim_C6_load_ordering (env : Env) (mrows : List MRow)
    (srows : List SRow) (s : EtlState) :
    match env.pgFailAt s.pgCalls, env.pgFailAt (s.pgCalls + 1),
        env.esFailAt s.esCalls with
    | some m, _, _ =>
      (loadAnalyticsData env mrows srows s).1 =
          .error ("Error loading analytics data: " ++ m) ∧
        (loadAnalyticsData env mrows srows s).2.metricsRows = s.metricsRows ∧
        (loadAnalyticsData env mrows srows s).2.skillRows = s.skillRows ∧
        (loadAnalyticsData env mrows srows s).2.esCalls = s.esCalls ∧
        (loadAnalyticsData env mrows srows s).2.esDocs = s.esDocs
    | none, some m, _ =>
      (loadAnalyticsData env mrows srows s).1 =
          .error ("Error loading analytics data: " ++ m) ∧
        (loadAnalyticsData env mrows srows s).2.metricsRows = s.metricsRows ∧
        (loadAnalyticsData env mrows srows s).2.skillRows = s.skillRows ∧
        (loadAnalyticsData env mrows srows s).2.esCalls = s.esCalls ∧
        (loadAnalyticsData env mrows srows s).2.esDocs = s.esDocs
    | none, none, some m =>
      (loadAnalyticsData env mrows srows s).1 =
          .error ("Error loading analytics data: " ++ m) ∧
        (loadAnalyticsData env mrows srows s).2.metricsRows =
          s.metricsRows ++ mrows ∧
        (loadAnalyticsData env mrows srows s).2.skillRows =
          s.skillRows ++ srows ∧
        (loadAnalyticsData env mrows srows s).2.esCalls = s.esCalls + 1 ∧
        (loadAnalyticsData env mrows srows s).2.esDocs = s.esDocs
    | none, none, none =>
      (loadAnalyticsData env mrows srows s).1 = .ok true ∧
        (loadAnalyticsData env mrows srows s).2.metricsRows =
          s.metricsRows ++ mrows ∧
        (loadAnalyticsData env mrows srows s).2.skillRows =
          s.skillRows ++ srows ∧
        (loadAnalyticsData env mrows srows s).2.esCalls = s.esCalls + 1 ∧
        (loadAnalyticsData env mrows srows s).2.esDocs = s.esDocs ++ mrows := by
  rcases h1 : env.pgFailAt s.pgCalls with _ | m1 <;>
    rcases h2 : env.pgFailAt (s.pgCalls + 1) with _ | m2 <;>
      rcases h3 : env.esFailAt s.esCalls with _ | m3 <;>
        simp [loadAnalyticsData, h1, h2, h3]

/-- C7 (amended): calling extract twice for the same date range within the
TTL returns the bit-identical cached bundle and the second call leaves the
whole state untouched (in particular no further store calls); but no
cache-hit counter increments — the extraction `TTLCache` keeps no counters,
and the metrics processor's `cache_hits` counter is not touched by
extraction. -/
theorem claim_C7_extract_idempotent (env : Env) (dr : ℤ × ℤ) (s : EtlState)
    (t1 t2 : ℤ) (hmiss : cacheLookup s.cache dr t1 = none)
    (hok : env.pgFailAt s.pgCalls = none) (httl : t2 - t1 < cacheTTL) :
    (extractRecruitmentData env t2 dr
        (extractRecruitmentData env t1 dr s).2).1 =
        (extractRecruitmentData env t1 dr s).1 ∧
      (extractRecruitmentData env t2 dr
        (extractRecruitmentData env t1 dr s).2).2 =
        (extractRecruitmentData env t1 dr s).2 ∧
      (extractRecruitmentData env t1 dr s).2.mpCacheHits = s.mpCacheHits ∧
      (extractRecruitmentData env t2 dr
        (extractRecruitmentData env t1 dr s).2).2.mpCacheHits =
        s.mpCacheHits := by
  have h1 : extractRecruitmentData env t1 dr s =
      (.ok ⟨env.pgData dr.1 dr.2, env.candData dr.1 dr.2, env.commData dr.1 dr.2⟩,
       { s with
          pgCalls := s.pgCalls + 1
          mongoCalls := s.mongoCalls + 2
          cache := ⟨dr, ⟨env.pgData dr.1 dr.2, env.candData dr.1 dr.2,
            env.commData dr.1 dr.2⟩, t1⟩ :: s.cache }) := by
    rw [extractRecruitmentData, hmiss, hok]
  have h2 : cacheLookup (⟨dr, ⟨env.pgData dr.1 dr.2, env.candData dr.1 dr.2,
      env.commData dr.1 dr.2⟩, t1⟩ :: s.cache) dr t2 =
      some ⟨env.pgData dr.1 dr.2, env.candData dr.1 dr.2, env.commData dr.1 dr.2⟩ := by
    rw [cacheLookup, List.find?_cons_of_pos]
    · rfl
    · simpa using httl
  rw [h1]
  constructor
  · rw [extractRecruitmentData, h2]
  · constructor
    · rw [extractRecruitmentData, h2]
    · constructor
      · rfl
      · rw [extractRecruitmentData, h2]

/-- A concrete environment whose stores always succeed. -/
def env0 : Env where
  pgData := fun _ _ => [reqA]
  candData := fun _ _ => []
  commData := fun _ _ => []
  pgFailAt := fun _ => none
  esFailAt := fun _ => none

/-- The initial service state: fresh counters, empty cache, empty sinks. -/
def state0 : EtlState := ⟨0, 0, 0, [], 0, [], [], []⟩

/-- Witness for `claim_C7_extract_idempotent` at a concrete environment,
range and pair of call times inside the TTL. -/
theorem claim_C7_extract_idempotent_witness :
    (extractRecruitmentData env0 10 (0, 100)
        (extractRecruitmentData env0 0 (0, 100) state0).2).1 =
        (extractRecruitmentData env0 0 (0, 100) state0).1 ∧
      (extractRecruitmentData env0 10 (0, 100)
        (extractRecruitmentData env0 0 (0, 100) state0).2).2 =
        (extractRecruitmentData env0 0 (0, 100) state0).2 ∧
      (extractRecruitmentData env0 0 (0, 100) state0).2.mpCacheHits =
        state0.mpCacheHits ∧
      (extractRecruitmentData env0 10 (0, 100)
        (extractRecruitmentData env0 0 (0, 100) state0).2).2.mpCacheHits =
        state0.mpCacheHits :=
  claim_C7_extract_idempotent env0 (0, 100) state0 0 10 rfl rfl (by decide)

/-- Claim C7 as stated is false in its counter conjunct: after a hit on the
second call the only cache-hit counter in the service (the metrics
processor's `cache_hits`) is still 0 — it has not been incremented, because
`extract_recruitment_data` uses a bare `TTLCache`, which keeps no hit/miss
counters. The bundle is bit-identical and the store call counters are
unchanged, as claimed. -/
theorem claim_C7_counterexample :
    (extractRecruitmentData env0 10 (0, 100)
        (extractRecruitmentData env0 0 (0, 100) state0).2).1 =
        (extractRecruitmentData env0 0 (0, 100) state0).1 ∧
      (extractRecruitmentData env0 10 (0, 100)
        (extractRecruitmentData env0 0 (0, 100) state0).2).2.pgCalls =
        (extractRecruitmentData env0 0 (0, 100) state0).2.pgCalls ∧
      (extractRecruitmentData env0 10 (0, 100)
        (extractRecruitmentData env0 0 (0, 100) state0).2).2.mongoCalls =
        (extractRecruitmentData env0 0 (0, 100) state0).2.mongoCalls ∧
      ¬ ((extractRecruitmentData env0 10 (0, 100)
            (extractRecruitmentData env0 0 (0, 100) state0).2).2.mpCacheHits =
          (extractRecruitmentData env0 0 (0, 100) state0).2.mpCacheHits + 1) := by
  refine ⟨rfl, rfl, rfl, ?_⟩
  decide

/-! ### The pipeline orchestrator (C2, C8) -/

/-- Embedding of `ETLService.run_etl_pipeline` control flow as a function of the
outcomes of its three stage calls: extract, then transform, then load,
each called exactly once; the first stage exception is caught, printed and
re-raised unchanged (`raise` at line 276), and on success the loader's
boolean is returned (duration and record counts are only printed). -/
def runEtlPipeline (extractS : Except String Bundle)
    (transformS : Bundle → Except String Transformed)
    (loadS : Transformed → Except String Bool) : Except String Bool :=
  match extractS with
  | .error m => .error m
  | .ok raw =>
    match transformS raw with
    | .error m => .error m
    | .ok pData =>
      match loadS pData with
      | .error m => .error m
      | .ok b => .ok b

/-- Embedding of `run_etl_pipeline` against an attempt-indexed extractor mock: the
source body contains no retry loop (the comment at `etl_service.py:275`
reads "Implement retry mechanism here if needed"), so exactly one extract
call is made and only attempt 0 of the mock is ever consumed. -/
def runEtlPipelineAttempts (eAtt : ℕ → Except String Bundle)
    (transformS : Bundle → Except String Transformed)
    (loadS : Transformed → Except String Bool) : Except String Bool :=
  runEtlPipeline (eAtt 0) transformS loadS

/-- Claim C2 as stated is false: with an extractor mock that fails twice and
then succeeds (the spec's retry scenario, `max_retries = 3`), the claim
predicts overall success after two backoff delays; the orchestrator has no
retry loop at all, so the pipeline fails immediately with the first
attempt's error. -/
theorem claim_C2_counterexample :
    runEtlPipelineAttempts
        (fun n => if n < 2 then .error "connection refused" else .ok rawSingle)
        (fun r => transformMetricsData (fun t => t) (fun t => t) r 1)
        (fun _ => .ok true) =
      .error "connection refused" := rfl

/-- C2 (amended): the orchestrator performs no retries and no backoff —
each stage is attempted at most once, so the pipeline outcome depends only
on attempt 0 of the extractor, and a first-attempt extraction error
propagates unchanged to the caller regardless of `max_retries`. -/
theorem claim_C2_no_retry (eAtt eAtt2 : ℕ → Except String Bundle)
    (transformS : Bundle → Except String Transformed)
    (loadS : Transformed → Except String Bool) (m : String)
    (h0 : eAtt 0 = eAtt2 0) :
    runEtlPipelineAttempts eAtt transformS loadS =
        runEtlPipelineAttempts eAtt2 transformS loadS ∧
      (eAtt 0 = .error m →
        runEtlPipelineAttempts eAtt transformS loadS = .error m) := by
  constructor
  · rw [runEtlPipelineAttempts, runEtlPipelineAttempts, h0]
  · intro he
    rw [runEtlPipelineAttempts, he]
    rfl

/-- Witness for `claim_C2_no_retry` at the fails-twice-then-succeeds
extractor mock. -/
theorem claim_C2_no_retry_witness :
    runEtlPipelineAttempts
          (fun n => if n < 2 then .error "connection refused" else .ok rawSingle)
          (fun r => transformMetricsData (fun t => t) (fun t => t) r 1)
          (fun _ => .ok true) =
        runEtlPipelineAttempts (fun _ => .error "connection refused")
          (fun r => transformMetricsData (fun t => t) (fun t => t) r 1)
          (fun _ => .ok true) ∧
      ((fun n => if n < 2 then .error "connection refused" else .ok rawSingle) 0 =
          (.error "connection refused" : Except String Bundle) →
        runEtlPipelineAttempts
            (fun n => if n < 2 then .error "connection refused" else .ok rawSingle)
            (fun r => transformMetricsData (fun t => t) (fun t => t) r 1)
            (fun _ => .ok true) = .error "connection refused") :=
  claim_C2_no_retry
    (fun n => if n < 2 then .error "connection refused" else .ok rawSingle)
    (fun _ => .error "connection refused")
    (fun r => transformMetricsData (fun t => t) (fun t => t) r 1)
    (fun _ => .ok true) "connection refused" rfl

/-- Claim C8 as stated is false: on a stage failure `run_etl_pipeline` does not
return a structured `{success, duration, records_processed, error}` record;
it prints and re-raises, so the exception escapes the orchestrator's
boundary to the caller. -/
theorem claim_C8_counterexample :
    runEtlPipeline (.error "db down")
        (fun r => transformMetricsData (fun t => t) (fun t => t) r 4)
        (fun _ => .ok true) =
      .error "db down" := rfl

/-- C8 (amended): the orchestrator's outcome is a bare
success-boolean-or-exception: a failing stage's error propagates unchanged
to the caller (the `except` block re-raises), and when all stages succeed
the loader's boolean is returned — duration and record counts are printed,
not returned, and no structured outcome record exists. -/
theorem claim_C8_outcome (e : Except String Bundle)
    (transformS : Bundle → Except String Transformed)
    (loadS : Transformed → Except String Bool) :
    (∀ m, e = .error m → runEtlPipeline e transformS loadS = .error m) ∧
      (∀ raw m, e = .ok raw → transformS raw = .error m →
        runEtlPipeline e transformS loadS = .error m) ∧
      (∀ raw pData, e = .ok raw → transformS raw = .ok pData →
        runEtlPipeline e transformS loadS = loadS pData) := by
  refine ⟨?_, ?_, ?_⟩
  · intro m he
    rw [runEtlPipeline.eq_def, he]
  · intro raw m he ht
    rw [runEtlPipeline.eq_def, he]
    dsimp only
    rw [ht]
  · intro raw pData he ht
    rw [runEtlPipeline.eq_def, he]
    dsimp only
    rw [ht]
    dsimp only
    cases loadS pData <;> rfl

/-- An empty transformed bundle used as a stage mock output. -/
def transformed0 : Transformed := ⟨[], [], []⟩

/-- Witness for `claim_C8_outcome` on the all-stages-succeed path. -/
theorem claim_C8_outcome_witness :
    runEtlPipeline (.ok rawSingle) (fun _ => .ok transformed0)
        (fun _ => .ok true) =
      (fun _ : Transformed => (.ok true : Except String Bool)) transformed0 :=
  (claim_C8_outcome (.ok rawSingle) (fun _ => .ok transformed0)
      (fun _ => .ok true)).2.2 rawSingle transformed0 rfl rfl

end RefactorTrack
